import Mathlib

/-!
Verification development for the turbo-stream streaming serialization
protocol (`src/turbo-stream.ts`).

The file shallowly embeds the orchestration code of `turbo-stream.ts`:

* the decode side: `decodeInitial`, the `decodeDeferred` settlement loop
  (modelled with explicit fuel, since the JS `while` loop can fail to
  terminate), and the wrapper in `decode` that rejects all outstanding
  placeholders when the loop throws;
* the encode side: the initial-frame emission in the `start`
  callback of `encode`, the settlement emission for resolved and rejected deferred
  values with the `lastSentIndex` high-water-mark bookkeeping, and
  `raceSignal`.

External collaborators that are not part of `turbo-stream.ts`
(`flatten`, `unflatten`, `JSON.parse`, `Number`, the `Deferred` helper
and the marker constants from `utils.js`) are abstracted: `flatten`
outcomes and parsed JSON values are parameters or opaque tokens, and
`Number` / `String.prototype.slice` / `indexOf` / `Array.prototype.slice`
are modelled concretely with JS semantics on the inputs the protocol
manipulates.
-/

namespace TurboStream

/-- A JS string, modelled as its list of characters.  An empty list is
the empty string `""` (which is falsy in JS). -/
abbrev JStr := List Char

/-- Modelled from the spec: the one-character frame-type markers from
`utils.js` (absent from `src/`).  The spec leaves the concrete characters
open as an implementation detail; we fix the resolution marker. -/
def TYPE_PROMISE : Char := 'P'

/-- Modelled from the spec: the rejection-frame marker from `utils.js`. -/
def TYPE_ERROR : Char := 'E'

/-- Modelled from the spec: the back-reference ("previously resolved")
tag from `utils.js`. -/
def TYPE_PREVIOUS_RESOLVED : Char := 'Z'

/-- JS `String.prototype.indexOf` for a single character: index of the
first occurrence, `-1` when absent. -/
def jsIndexOf (l : JStr) (c : Char) : Int :=
  match l.findIdx? (· = c) with
  | some i => (i : Int)
  | none => -1

/-- Normalize a JS slice index against a length: negative indices count
from the end (clamped at `0`), positive ones are clamped at the length. -/
def jsSliceIdx (len : Nat) (i : Int) : Nat :=
  if i < 0 then ((len : Int) + i).toNat else min i.toNat len

/-- JS two-argument `slice(start, stop)` on a string/array of length
`l.length`. -/
def jsSlice (l : JStr) (start stop : Int) : JStr :=
  (l.take (jsSliceIdx l.length stop)).drop (jsSliceIdx l.length start)

/-- JS one-argument `slice(start)` (up to the end), generic over the
element type so it also serves `Array.prototype.slice` on the
`stringified` table of the encoder. -/
def jsSliceFrom {α : Type} (l : List α) (start : Int) : List α :=
  l.drop (jsSliceIdx l.length start)

/-- Whitespace characters trimmed by JS `Number(string)`. -/
def jsIsWs (c : Char) : Bool :=
  c = ' ' || c = '\t' || c = '\n' || c = '\r'

/-- Digits of a decimal numeral folded into a `Nat`. -/
def digitsToNat (l : JStr) : Nat :=
  l.foldl (fun a c => a * 10 + (c.toNat - 48)) 0

/-- The JS `Number(string)` coercion, restricted to the shapes relevant
to the wire protocol: after trimming whitespace, the empty string is `0`,
an optionally signed run of decimal digits is its value, and anything
else is `NaN` (`none`).  (Deferred ids on the wire are decimal integer
numerals produced by the encoder; non-integer numeric strings, which JS
would parse to a fractional number, are conflated with `NaN` here — both
can never match an integer-keyed registry entry, which is the only use
this model makes of the result.) -/
def jsNumber (s : JStr) : Option Int :=
  let t := ((s.dropWhile jsIsWs).reverse.dropWhile jsIsWs).reverse
  if t = [] then some 0
  else if t.all Char.isDigit then some (digitsToNat t)
  else
    match t with
    | '-' :: ds => if ds ≠ [] ∧ ds.all Char.isDigit then some (-(digitsToNat ds : Int)) else none
    | '+' :: ds => if ds ≠ [] ∧ ds.all Char.isDigit then some ((digitsToNat ds : Int)) else none
    | _ => none

/-! ## Decode side -/

/-- Opaque token standing for a parsed JSON document (the output of
`JSON.parse`); the orchestrator never inspects it, it only hands it to
`unflatten`. -/
abbrev JVal := Nat

/-- Opaque token standing for a hydrated value (the output of
`unflatten`). -/
abbrev HVal := Nat

/-- Errors thrown by the decode orchestrator.  `synErr` models a JS
`SyntaxError`; `lookupError id` models
`new Error("Deferred ID ... not found in stream")`, where `id` is the
result of the `Number` coercion of the id field (`none` = `NaN`). -/
inductive DecErr where
  | synErr : DecErr
  | lookupError : Option Int → DecErr
deriving DecidableEq, Repr

/-- A value a decode-side placeholder can be settled with: either a
hydrated wire value or a thrown decode error (used by the fan-out
rejection in the catch handler of `decode`). -/
inductive DVal where
  | hyd : HVal → DVal
  | errv : DecErr → DVal
deriving DecidableEq, Repr

/-- The observable state of one decode-side `Deferred` placeholder.
`resolve`/`reject` on an already-settled promise is a no-op, which is
why the settled states carry their value permanently. -/
inductive DStatus where
  | pending : DStatus
  | resolvedS : DVal → DStatus
  | rejectedS : DVal → DStatus
deriving DecidableEq, Repr

/-- The decode-side deferred registry `this.deferred`: an association
list from numeric deferred id to placeholder state.  Entries are never
deleted (the source never deletes from `decoder.deferred`). -/
abbrev Reg := List (Int × DStatus)

/-- Lookup of an integer key in the registry (the first entry with that
key; the encoder assigns ids uniquely). -/
def regFind (r : Reg) (i : Int) : Option DStatus :=
  match r with
  | [] => none
  | p :: rest => if p.1 = i then some p.2 else regFind rest i

/-- Lookup `this.deferred[deferredId]` where `deferredId` is the result of the
`Number` coercion: a `NaN` key (`none`) matches nothing. -/
def regLookup (r : Reg) (k : Option Int) : Option DStatus :=
  match k with
  | none => none
  | some i => regFind r i

/-- Model of `deferred.resolve v` / `deferred.reject v` on the registry entry for
key `k`: the settle functions of a `Deferred` are no-ops unless it is still
pending, and the entry itself stays in the registry. -/
def settleReg (r : Reg) (k : Int) (s : DStatus) : Reg :=
  r.map (fun p => if p.1 = k ∧ p.2 = DStatus.pending then (p.1, s) else p)

/-- The fan-out in the catch handler of `decode`: `deferred.reject(reason)`
for every registry entry; only still-pending entries change state. -/
def rejectAllPending (r : Reg) (e : DecErr) : Reg :=
  r.map (fun p => if p.2 = DStatus.pending then (p.1, DStatus.rejectedS (DVal.errv e)) else p)

/-- Abstraction of `unflatten.call(this, jsonLine)` from `unflatten.js`
(absent from `src/`): produces a hydrated value and may register further
deferred placeholders in the registry.  The hydration cache
(`values`/`hydrated`) is internal to `unflatten` and not modelled. -/
abbrev Unflatten := JVal → Reg → HVal × Reg

/-- Spec contract for `unflatten`: it only appends (registers new
placeholders); it never removes or alters existing registry entries. -/
def ufExtends (uf : Unflatten) : Prop :=
  ∀ j r, ∃ ext, (uf j r).2 = r ++ ext

/-- Abstraction of `JSON.parse`: `none` models a thrown parse error. -/
abbrev JParse := JStr → Option JVal

/-- One settlement line (`TYPE_PROMISE` or `TYPE_ERROR` case of the
`switch` in `decodeDeferred`): find the colon, coerce the id field with
`Number`, look the id up (failing with the lookup error when absent,
including for `NaN`), parse the payload (failing with a `SyntaxError`),
unflatten it and resolve/reject the placeholder. -/
def settleLine (parse : JParse) (uf : Unflatten) (isErr : Bool) (line : JStr)
    (reg : Reg) : Except DecErr Reg :=
  match jsNumber (jsSlice line 1 (jsIndexOf line ':')) with
  | none => Except.error (DecErr.lookupError none)
  | some i =>
    match regLookup reg (some i) with
    | none => Except.error (DecErr.lookupError (some i))
    | some _ =>
      match parse (jsSliceFrom line (jsIndexOf line ':' + 1)) with
      | none => Except.error DecErr.synErr
      | some j =>
        Except.ok (settleReg (uf j reg).2 i
          (if isErr then DStatus.rejectedS (DVal.hyd (uf j reg).1)
           else DStatus.resolvedS (DVal.hyd (uf j reg).1)))

/-- The `switch (line[0])` dispatch of `decodeDeferred`: resolution
marker, rejection marker, anything else is a fatal `SyntaxError`. -/
def processLine (parse : JParse) (uf : Unflatten) (line : JStr) (reg : Reg) :
    Except DecErr Reg :=
  match line with
  | [] => Except.error DecErr.synErr
  | c :: _ =>
    if c = TYPE_PROMISE then settleLine parse uf false line reg
    else if c = TYPE_ERROR then settleLine parse uf true line reg
    else Except.error DecErr.synErr

/-- How one run of the `decodeDeferred` loop ended: `timeout` means the
fuel ran out, i.e. within that many iterations the loop did not finish
(used to express non-termination), `clean` models a normal exit when the
reader reports `done`, `errored e` models a thrown error `e`. -/
inductive LoopRes where
  | timeout : LoopRes
  | clean : LoopRes
  | errored : DecErr → LoopRes
deriving DecidableEq, Repr

/-- The `while (!read.done)` loop of `decodeDeferred`, with fuel.  The
current read result is `none` when the reader reported `done`, and
`some line` otherwise; `rest` is the list of lines still queued in the
reader.  Faithful to the source, the blank-line branch
(`if (!read.value) continue;`) jumps back to the loop head *without
reading another line*, so the read result is unchanged. -/
def decodeLoop (parse : JParse) (uf : Unflatten) :
    Nat → Option JStr → List JStr → Reg → Reg × LoopRes
  | 0, _, _, reg => (reg, LoopRes.timeout)
  | _ + 1, none, _, reg => (reg, LoopRes.clean)
  | fuel + 1, some line, rest, reg =>
    if line = [] then decodeLoop parse uf fuel (some line) rest reg
    else
      match processLine parse uf line reg with
      | Except.error e => (reg, LoopRes.errored e)
      | Except.ok reg' =>
        match rest with
        | [] => decodeLoop parse uf fuel none [] reg'
        | l :: ls => decodeLoop parse uf fuel (some l) ls reg'

/-- The function `decodeDeferred` proper: perform the first `reader.read()` and enter
the loop.  `lines` is the sequence of lines the line splitter will
deliver before the stream closes. -/
def decodeDeferredRun (parse : JParse) (uf : Unflatten) (fuel : Nat)
    (lines : List JStr) (reg : Reg) : Reg × LoopRes :=
  match lines with
  | [] => decodeLoop parse uf fuel none [] reg
  | l :: ls => decodeLoop parse uf fuel (some l) ls reg

/-- The observable state of the `done` completion signal returned by
`decode`. -/
inductive DoneSig where
  | doneResolved : DoneSig
  | doneRejected : DecErr → DoneSig
  | donePending : DoneSig
deriving DecidableEq, Repr

/-- The tail of `decode` (lines 41–50 of the source): run
`decodeDeferred`; on normal completion resolve `done` (the registry is
left as-is); on a thrown error reject every registry entry with the
reason and reject `done` with it; if the loop never finishes, `done`
never settles. -/
def decodeTail (parse : JParse) (uf : Unflatten) (fuel : Nat)
    (lines : List JStr) (reg : Reg) : DoneSig × Reg :=
  match decodeDeferredRun parse uf fuel lines reg with
  | (reg', LoopRes.clean) => (DoneSig.doneResolved, reg')
  | (reg', LoopRes.errored e) => (DoneSig.doneRejected e, rejectAllPending reg' e)
  | (reg', LoopRes.timeout) => (DoneSig.donePending, reg')

/-- One `reader.read()` result: `value` is `none` for JS `undefined`
(and `some []` for the falsy empty string), `done` is the stream-end
flag. -/
structure ReadRes where
  value : Option JStr
  done : Bool
deriving DecidableEq, Repr

/-- Model of `decodeInitial`: read one line; a missing or empty line is a
`SyntaxError`, an unparseable line is a `SyntaxError`; otherwise
unflatten it over the fresh decoder state (empty registry) and return
`(read.done, value, registry)`. -/
def decodeInitial (parse : JParse) (uf : Unflatten) (r : ReadRes) :
    Except DecErr (Bool × HVal × Reg) :=
  match r.value with
  | none => Except.error DecErr.synErr
  | some [] => Except.error DecErr.synErr
  | some l =>
    match parse l with
    | none => Except.error DecErr.synErr
    | some j =>
      let vr := uf j []
      Except.ok (r.done, vr.1, vr.2)

/-! ## Encode side -/

/-- The shape of the return value of `flatten`: `wrapped k` models the
single-element array `[k]` (back-reference), `num n` a plain number
(`n < 0` is an inline sentinel, `n ≥ 0` a fragment-table index). -/
inductive FlattenId where
  | wrapped : Int → FlattenId
  | num : Int → FlattenId
deriving DecidableEq, Repr

/-- One call of `flatten.call(encoder, _)` from `flatten.js` (absent
from `src/`), abstracted by its observable effect on the orchestrator:
the list of fragments it appended to `encoder.stringified` (in order)
and the reference id it returned. -/
abbrev FlatOut := List String × FlattenId

/-- The encoder bookkeeping mutated by the settlement loop.
`stringified` is the fragment table; a `none` entry is a hole left by
the `encoder.index++` bookkeeping step of the back-reference branch (in
JS the array slot at that index is simply never written; we materialize
the hole eagerly, which agrees with the JS array at every point where a
length or a slice is observed).  `lastSentIndex` is the high-water
mark. -/
structure EncState where
  stringified : List (Option String)
  lastSentIndex : Int
deriving DecidableEq, Repr

/-- Structured rendering of a settlement-frame payload: `backref k`
renders as `[["Z",k]]` (a single-element back-reference), `sentinel n`
as the bare number, `delta es` as `[` the joined entries `]`.  The
textual rendering is injective from this data. -/
inductive Payload where
  | backref : Int → Payload
  | sentinel : Int → Payload
  | delta : List (Option String) → Payload
deriving DecidableEq, Repr

/-- Structured rendering of one emitted line. -/
inductive Frame where
  | initialSentinel : Int → Frame
  | initialTable : List (Option String) → Frame
  | settleF : Bool → Nat → Payload → Frame
deriving DecidableEq, Repr

/-- Is this frame a rejection frame (marker `TYPE_ERROR`)? -/
def Frame.isRejection : Frame → Bool
  | Frame.settleF true _ _ => true
  | _ => false

/-- The deferred id a settlement frame is addressed to. -/
def Frame.frameDeferredId : Frame → Option Nat
  | Frame.settleF _ d _ => some d
  | _ => none

/-- The only fatal error of `encode`, thrown as `new Error("This should never happen")`
when the top-level flatten returns the array (back-reference) shape. -/
inductive EncErr where
  | invariantViolation : EncErr
deriving DecidableEq, Repr

/-- Lines 152–164 of the source: run the top-level flatten (its appended
fragments and returned id are `fo`); an array result is fatal; a
negative id emits just the sentinel line; otherwise emit the full
current fragment table and set `lastSentIndex` to its last index.
`lastSentIndex` starts at `0`. -/
def encodeStart (fo : FlatOut) : Except EncErr (Frame × EncState) :=
  let st0 : EncState := ⟨fo.1.map some, 0⟩
  match fo.2 with
  | FlattenId.wrapped _ => Except.error EncErr.invariantViolation
  | FlattenId.num n =>
    if n < 0 then Except.ok (Frame.initialSentinel n, st0)
    else Except.ok (Frame.initialTable st0.stringified,
      { st0 with lastSentIndex := (st0.stringified.length : Int) - 1 })

/-- The settlement-frame emission (lines 176–200 for resolutions, the
identical branch structure at lines 211–234 for rejections): flatten
the settled value (appending `fo.1` to the table), then
* array result `[k]`: emit a back-reference payload, `encoder.index++`
  (the hole) and `lastSentIndex++`;
* negative id: emit the bare sentinel payload, no bookkeeping change;
* otherwise: emit `stringified.slice(lastSentIndex + 1)` as the payload
  and set `lastSentIndex` to the new last index. -/
def emitSettle (isErr : Bool) (did : Nat) (fo : FlatOut) (st : EncState) :
    Frame × EncState :=
  let st1 : EncState := { st with stringified := st.stringified ++ fo.1.map some }
  match fo.2 with
  | FlattenId.wrapped k =>
    (Frame.settleF isErr did (Payload.backref k),
      ⟨st1.stringified ++ [none], st1.lastSentIndex + 1⟩)
  | FlattenId.num n =>
    if n < 0 then (Frame.settleF isErr did (Payload.sentinel n), st1)
    else
      (Frame.settleF isErr did (Payload.delta (jsSliceFrom st1.stringified (st.lastSentIndex + 1))),
        { st1 with lastSentIndex := (st1.stringified.length : Int) - 1 })

/-- A rejection reason as the normalization step sees it: either an
`Error` instance (with its message) or anything else (`null`,
`undefined`, a primitive, a non-`Error` object — all of which fail the
`reason instanceof Error` test). -/
inductive RejReason where
  | errorObj : String → RejReason
  | nonError : RejReason
deriving DecidableEq, Repr

/-- Lines 203–209 of the source: substitute
`new Error("An unknown error occurred")` when the rejection reason is
not an `Error` instance. -/
def normalizeReason : RejReason → RejReason
  | RejReason.errorObj m => RejReason.errorObj m
  | RejReason.nonError => RejReason.errorObj "An unknown error occurred"

/-- One settlement event of the encode loop, in completion order:
either the deferred resolved (with the flatten outcome of its value) or
it rejected with `reason`; `flat` gives the flatten outcome of whatever
(normalized) reason is actually flattened. -/
inductive Settlement where
  | resolvedE : FlatOut → Settlement
  | rejectedE : RejReason → (RejReason → FlatOut) → Settlement

/-- Emit the frame for one settlement event. -/
def stepSettle (st : EncState) : Nat × Settlement → Frame × EncState
  | (did, Settlement.resolvedE fo) => emitSettle false did fo st
  | (did, Settlement.rejectedE reason flat) =>
    emitSettle true did (flat (normalizeReason reason)) st

/-- The settlement loop of `encode`, driven by the completion-order
schedule: the `Promise.race` machinery guarantees one frame per
registered deferred id, emitted in completion order, which is exactly
what the schedule lists. -/
def runSettles : List (Nat × Settlement) → EncState → List Frame × EncState
  | [], st => ([], st)
  | ev :: evs, st =>
    let fs := stepSettle st ev
    let rest := runSettles evs fs.2
    (fs.1 :: rest.1, rest.2)

/-- A whole encode run: initial frame then the settlement frames; the
stream then closes normally (`controller.close()` — the settlement path
itself never throws). -/
def encodeRun (init : FlatOut) (sched : List (Nat × Settlement)) :
    Except EncErr (List Frame) :=
  match encodeStart init with
  | Except.error e => Except.error e
  | Except.ok fs => Except.ok (fs.1 :: (runSettles sched fs.2).1)

/-- An `AbortSignal`: its `aborted` flag and its `reason` (`none` models
a falsy `signal.reason`, which the source replaces with
`new Error("Signal was aborted.")`). -/
structure SignalM where
  aborted : Bool
  reason : Option RejReason
deriving DecidableEq, Repr

/-- The fallback abort error `new Error("Signal was aborted.")`. -/
def defaultAbortError : RejReason := RejReason.errorObj "Signal was aborted."

/-- Models `signal.reason || new Error("Signal was aborted.")`. -/
def abortReason (s : SignalM) : RejReason := s.reason.getD defaultAbortError

/-- The outcome a raced promise eventually presents: `none` if it never
settles. -/
inductive POutcome where
  | pResolved : Nat → POutcome
  | pRejected : RejReason → POutcome
deriving DecidableEq, Repr

/-- Model of `raceSignal` (lines 253–266): no signal passes the promise through;
an already-aborted signal rejects immediately with the abort reason
(without racing); otherwise the promise is raced against the abort
event — `abortFiresFirst` is the timing oracle saying whether the abort
event wins that race. -/
def raceSignal (p : Option POutcome) (signal : Option SignalM)
    (abortFiresFirst : Bool) : Option POutcome :=
  match signal with
  | none => p
  | some s =>
    if s.aborted then some (POutcome.pRejected (abortReason s))
    else if abortFiresFirst then some (POutcome.pRejected (abortReason s))
    else p

/-- The schedule the settlement loop sees when the signal is aborted
while `pending` deferred ids are still outstanding: the `raceSignal`
of each entry rejects immediately with the abort reason, so each becomes
a rejection settlement (`flat` being the flatten outcome of the
normalized reason). -/
def cancelSchedule (pending : List (Nat × (RejReason → FlatOut))) (s : SignalM) :
    List (Nat × Settlement) :=
  pending.map (fun p => (p.1, Settlement.rejectedE (abortReason s) p.2))

/-- The frames produced by draining an aborted encode. -/
def cancelDrain (pending : List (Nat × (RejReason → FlatOut))) (s : SignalM)
    (st : EncState) : List Frame :=
  (runSettles (cancelSchedule pending s) st).1

/-! ## Derived notions and concrete instantiations used by the theorems -/

/-- The id field of a settlement line as the source computes it
(lines 91–92 / 111–112): `Number(line.slice(1, line.indexOf(":")))`. -/
def lineDeferredId (line : JStr) : Option Int :=
  jsNumber (jsSlice line 1 (jsIndexOf line ':'))

/-- A `JSON.parse` stand-in that accepts every payload. -/
def trivParse : JParse := fun _ => some 0

/-- A `JSON.parse` stand-in that rejects every payload. -/
def failParse : JParse := fun _ => none

/-- A `JSON.parse` stand-in that keeps the decimal value of the payload,
so that different payloads hydrate to distinguishable tokens. -/
def tokParse : JParse := fun s => some (digitsToNat s)

/-- An `unflatten` stand-in that hydrates every document to the same
token and registers nothing. -/
def trivUnflatten : Unflatten := fun _ r => (0, r)

/-- An `unflatten` stand-in that hydrates a document to its own token
and registers nothing. -/
def tokUnflatten : Unflatten := fun j r => (j, r)

lemma trivUnflatten_extends : ufExtends trivUnflatten :=
  fun _ r => ⟨[], by simp [trivUnflatten]⟩

/-! ## Helper lemmas -/

lemma regFind_append_of_some {r : Reg} (ext : Reg) {i : Int} {s : DStatus}
    (h : regFind r i = some s) : regFind (r ++ ext) i = some s := by
  induction r with
  | nil => simp [regFind] at h
  | cons a r ih =>
    by_cases ha : a.1 = i
    · simpa [regFind, ha] using h
    · rw [regFind, if_neg ha] at h
      simpa [regFind, ha] using ih h

lemma regFind_settleReg_of_settled {r : Reg} {i : Int} {v : DVal} (k : Int) (s : DStatus)
    (h : regFind r i = some (DStatus.resolvedS v)) :
    regFind (settleReg r k s) i = some (DStatus.resolvedS v) := by
  induction r with
  | nil => simp [regFind] at h
  | cons a r ih =>
    by_cases ha : a.1 = i
    · rw [regFind, if_pos ha] at h
      have ha2 : a.2 = DStatus.resolvedS v := by injection h
      have : ¬(a.1 = k ∧ a.2 = DStatus.pending) := by
        rintro ⟨-, hp⟩; rw [ha2] at hp; exact DStatus.noConfusion hp
      simp [settleReg, regFind, this, ha, ha2]
    · rw [regFind, if_neg ha] at h
      by_cases hk : a.1 = k ∧ a.2 = DStatus.pending
      · have hki : ¬(k = i) := by rw [← hk.1]; exact ha
        simpa [settleReg, regFind, hk, hki] using ih h
      · simpa [settleReg, regFind, hk, ha] using ih h

lemma settleLine_lookup_none (parse : JParse) (uf : Unflatten) (b : Bool) (line : JStr)
    (reg : Reg) (h : regLookup reg (lineDeferredId line) = none) :
    settleLine parse uf b line reg = Except.error (DecErr.lookupError (lineDeferredId line)) := by
  unfold lineDeferredId at h ⊢
  unfold settleLine
  rcases hid : jsNumber (jsSlice line 1 (jsIndexOf line ':')) with _ | i
  · rfl
  · rw [hid] at h
    simp [h]

lemma processLine_marker (parse : JParse) (uf : Unflatten) (c : Char) (tl : JStr)
    (reg : Reg) (hc : c = TYPE_PROMISE ∨ c = TYPE_ERROR) :
    processLine parse uf (c :: tl) reg =
      settleLine parse uf (c = TYPE_ERROR) (c :: tl) reg := by
  rcases hc with hc | hc <;> subst hc <;>
    simp [processLine, TYPE_PROMISE, TYPE_ERROR]

lemma mem_rejectAllPending {reg : Reg} {p : Int × DStatus} (e : DecErr)
    (hp : p ∈ reg) (hpend : p.2 = DStatus.pending) :
    (p.1, DStatus.rejectedS (DVal.errv e)) ∈ rejectAllPending reg e := by
  unfold rejectAllPending
  exact List.mem_map.mpr ⟨p, hp, by simp [hpend]⟩

/-! ## Claim theorems -/

/-- C1: the claim says a blank line is skipped and the loop then
proceeds to read and process the subsequent lines until the stream
ends.  The code instead hits `continue` without performing another
`reader.read()`, so once the current read result is a blank line the
loop never terminates for any amount of fuel: the registry is never
touched again, the queued lines are never processed, and the loop never
reaches the end of the stream. -/
theorem blank_line_spins_forever (parse : JParse) (uf : Unflatten) :
    ∀ (fuel : Nat) (rest : List JStr) (reg : Reg),
      decodeLoop parse uf fuel (some []) rest reg = (reg, LoopRes.timeout) := by
  intro fuel
  induction fuel with
  | zero => intro rest reg; rfl
  | succ n ih => intro rest reg; simpa [decodeLoop] using ih rest reg

/-- C2 counterexample: the stream closes cleanly (no further lines)
while the registry still holds the pending placeholder `0`.  The claim
predicts the failure path (completion signal rejects and the
placeholder is rejected); the code resolves the completion signal and
leaves the placeholder pending forever. -/
theorem clean_close_with_pending_counterexample :
    decodeTail trivParse trivUnflatten 5 [] [(0, DStatus.pending)] =
      (DoneSig.doneResolved, [(0, DStatus.pending)]) := by decide

/-- C2 amended: the failure path (reject every still-pending
placeholder, reject the completion signal) runs exactly when
`decodeDeferred` throws; a clean stream close resolves the completion
signal regardless of whether the registry is empty, and any pending
placeholders then simply remain pending. -/
theorem failure_path_only_on_thrown_error (parse : JParse) (uf : Unflatten)
    (fuel : Nat) (lines : List JStr) (reg reg' : Reg) :
    (∀ e, decodeDeferredRun parse uf fuel lines reg = (reg', LoopRes.errored e) →
      decodeTail parse uf fuel lines reg = (DoneSig.doneRejected e, rejectAllPending reg' e) ∧
      ∀ p ∈ reg', p.2 = DStatus.pending →
        (p.1, DStatus.rejectedS (DVal.errv e)) ∈ (decodeTail parse uf fuel lines reg).2) ∧
    (decodeDeferredRun parse uf fuel lines reg = (reg', LoopRes.clean) →
      decodeTail parse uf fuel lines reg = (DoneSig.doneResolved, reg')) := by
  constructor
  · intro e hrun
    have htail : decodeTail parse uf fuel lines reg =
        (DoneSig.doneRejected e, rejectAllPending reg' e) := by
      unfold decodeTail
      rw [hrun]
    refine ⟨htail, ?_⟩
    intro p hp hpend
    rw [htail]
    exact mem_rejectAllPending e hp hpend
  · intro hrun
    unfold decodeTail
    rw [hrun]

theorem failure_path_only_on_thrown_error_witness :
    decodeTail trivParse trivUnflatten 5 [] [(0, DStatus.pending)] =
      (DoneSig.doneResolved, [(0, DStatus.pending)]) ∧
    decodeTail trivParse trivUnflatten 5 [['X']] [(0, DStatus.pending)] =
      (DoneSig.doneRejected DecErr.synErr,
        [(0, DStatus.rejectedS (DVal.errv DecErr.synErr))]) :=
  ⟨(failure_path_only_on_thrown_error trivParse trivUnflatten 5 []
      [(0, DStatus.pending)] [(0, DStatus.pending)]).2 (by decide),
   by
    have h := (failure_path_only_on_thrown_error trivParse trivUnflatten 5 [['X']]
      [(0, DStatus.pending)] [(0, DStatus.pending)]).1 DecErr.synErr (by decide)
    exact h.1.trans (by decide)⟩

/-- C3: a settlement frame (resolution or rejection marker) whose
deferred id is absent from the registry makes `decodeDeferred` throw
the "Deferred ID ... not found in stream" lookup error, and `decode`
propagates it: the completion signal rejects with that error and every
placeholder still pending in the registry is rejected with it. -/
theorem unknown_id_rejects_outstanding (parse : JParse) (uf : Unflatten)
    (fuel : Nat) (rest : List JStr) (reg : Reg) (c : Char) (tl : JStr)
    (hc : c = TYPE_PROMISE ∨ c = TYPE_ERROR)
    (hlook : regLookup reg (lineDeferredId (c :: tl)) = none) :
    decodeTail parse uf (fuel + 1) ((c :: tl) :: rest) reg =
      (DoneSig.doneRejected (DecErr.lookupError (lineDeferredId (c :: tl))),
        rejectAllPending reg (DecErr.lookupError (lineDeferredId (c :: tl)))) ∧
    ∀ p ∈ reg, p.2 = DStatus.pending →
      (p.1, DStatus.rejectedS (DVal.errv (DecErr.lookupError (lineDeferredId (c :: tl))))) ∈
        (decodeTail parse uf (fuel + 1) ((c :: tl) :: rest) reg).2 := by
  have hproc : processLine parse uf (c :: tl) reg =
      Except.error (DecErr.lookupError (lineDeferredId (c :: tl))) := by
    rw [processLine_marker parse uf c tl reg hc]
    exact settleLine_lookup_none parse uf _ _ _ hlook
  have hrun : decodeDeferredRun parse uf (fuel + 1) ((c :: tl) :: rest) reg =
      (reg, LoopRes.errored (DecErr.lookupError (lineDeferredId (c :: tl)))) := by
    simp [decodeDeferredRun, decodeLoop, hproc]
  have htail : decodeTail parse uf (fuel + 1) ((c :: tl) :: rest) reg =
      (DoneSig.doneRejected (DecErr.lookupError (lineDeferredId (c :: tl))),
        rejectAllPending reg (DecErr.lookupError (lineDeferredId (c :: tl)))) := by
    unfold decodeTail
    rw [hrun]
  refine ⟨htail, ?_⟩
  intro p hp hpend
  rw [htail]
  exact mem_rejectAllPending _ hp hpend

theorem unknown_id_rejects_outstanding_witness :
    decodeTail trivParse trivUnflatten 3 [['P', '5', ':', '1']] [(0, DStatus.pending)] =
      (DoneSig.doneRejected (DecErr.lookupError (some 5)),
        [(0, DStatus.rejectedS (DVal.errv (DecErr.lookupError (some 5))))]) := by
  have h := (unknown_id_rejects_outstanding trivParse trivUnflatten 2 []
    [(0, DStatus.pending)] 'P' ['5', ':', '1'] (Or.inl rfl) (by decide)).1
  exact h.trans (by decide)

/-- C4 counterexample: registry `{0 ↦ pending}`, then two resolution
frames both addressed to id `0`.  The first settles the placeholder
with the hydrated payload `1`; the second references the now
already-settled id `0` and — contrary to the claim — is silently
ignored rather than fatal: the run completes cleanly, the completion
signal resolves, and the placeholder keeps its first value. -/
theorem already_settled_id_counterexample :
    decodeTail tokParse tokUnflatten 10
        [['P', '0', ':', '1'], ['P', '0', ':', '2']] [(0, DStatus.pending)] =
      (DoneSig.doneResolved, [(0, DStatus.resolvedS (DVal.hyd 1))]) := by decide

/-- C4 amended: a settlement frame for an id that is *absent* from the
registry is fatal (see the C3 theorem), but a frame whose id is present
and already settled is not an error: the lookup succeeds (entries are
never deleted), the payload is parsed and unflattened, and the
`resolve`/`reject` call is a no-op on the settled placeholder, which
keeps its first settlement — the frame is silently ignored. -/
theorem already_settled_id_is_noop (parse : JParse) (uf : Unflatten)
    (huf : ufExtends uf) (c : Char) (tl : JStr) (i : Int) (v : DVal) (j : JVal)
    (reg : Reg) (hc : c = TYPE_PROMISE ∨ c = TYPE_ERROR)
    (hid : lineDeferredId (c :: tl) = some i)
    (hlook : regLookup reg (some i) = some (DStatus.resolvedS v))
    (hparse : parse (jsSliceFrom (c :: tl) (jsIndexOf (c :: tl) ':' + 1)) = some j) :
    ∃ reg', processLine parse uf (c :: tl) reg = Except.ok reg' ∧
      regLookup reg' (some i) = some (DStatus.resolvedS v) := by
  unfold lineDeferredId at hid
  rw [processLine_marker parse uf c tl reg hc]
  unfold settleLine
  rw [hid]
  simp only [hlook, hparse]
  refine ⟨_, rfl, ?_⟩
  obtain ⟨ext, hext⟩ := huf j reg
  rw [hext]
  unfold regLookup
  exact regFind_settleReg_of_settled _ _ (regFind_append_of_some ext hlook)

theorem already_settled_id_is_noop_witness :
    ∃ reg', processLine trivParse trivUnflatten ['P', '0', ':', '1']
        [(0, DStatus.resolvedS (DVal.hyd 7))] = Except.ok reg' ∧
      regLookup reg' (some 0) = some (DStatus.resolvedS (DVal.hyd 7)) :=
  already_settled_id_is_noop trivParse trivUnflatten trivUnflatten_extends
    'P' ['0', ':', '1'] 0 (DVal.hyd 7) 0 [(0, DStatus.resolvedS (DVal.hyd 7))]
    (Or.inl rfl) (by decide) (by decide) (by decide)

/-- C9: the first decode step fails with a `SyntaxError` — fatal, no
hydrated value is produced — when no initial line is available
(`read.value` undefined), when the initial line is empty, or when it is
not valid structured text (`JSON.parse` throws); and in the settlement
loop, a line whose leading marker is neither the resolution marker nor
the rejection marker is a fatal `SyntaxError`. -/
theorem malformed_input_is_fatal (parse : JParse) (uf : Unflatten) (d : Bool)
    (l : JStr) (c : Char) (tl : JStr) (reg : Reg) :
    (decodeInitial parse uf ⟨none, d⟩ = Except.error DecErr.synErr) ∧
    (decodeInitial parse uf ⟨some [], d⟩ = Except.error DecErr.synErr) ∧
    (parse l = none → l ≠ [] →
      decodeInitial parse uf ⟨some l, d⟩ = Except.error DecErr.synErr) ∧
    (c ≠ TYPE_PROMISE → c ≠ TYPE_ERROR →
      processLine parse uf (c :: tl) reg = Except.error DecErr.synErr) := by
  refine ⟨rfl, rfl, ?_, ?_⟩
  · intro hp hl
    cases l with
    | nil => exact absurd rfl hl
    | cons a l => simp [decodeInitial, hp]
  · intro h1 h2
    simp [processLine, h1, h2]

theorem malformed_input_is_fatal_witness :
    (decodeInitial failParse trivUnflatten ⟨none, false⟩ = Except.error DecErr.synErr) ∧
    (decodeInitial failParse trivUnflatten ⟨some [], false⟩ = Except.error DecErr.synErr) ∧
    (decodeInitial failParse trivUnflatten ⟨some ['1'], false⟩ = Except.error DecErr.synErr) ∧
    (processLine failParse trivUnflatten ['X', '0'] [] = Except.error DecErr.synErr) := by
  have h := malformed_input_is_fatal failParse trivUnflatten false ['1'] 'X' ['0'] []
  exact ⟨h.1, h.2.1, h.2.2.1 rfl (by decide), h.2.2.2 (by decide) (by decide)⟩

/-- C10: a settlement line with a valid marker and a colon whose id
field does not parse as a number (the `Number` coercion yields `NaN`)
fails with the "Deferred ID not found" lookup error — not with a
`SyntaxError` — because the `NaN` key can never match a registered
registry entry, whatever the registry contains. -/
theorem nan_id_yields_lookup_error (parse : JParse) (uf : Unflatten) (c : Char)
    (tl : JStr) (reg : Reg) (hc : c = TYPE_PROMISE ∨ c = TYPE_ERROR)
    (_hcolon : 0 ≤ jsIndexOf (c :: tl) ':')
    (hnan : lineDeferredId (c :: tl) = none) :
    processLine parse uf (c :: tl) reg = Except.error (DecErr.lookupError none) ∧
    DecErr.lookupError none ≠ DecErr.synErr := by
  refine ⟨?_, by decide⟩
  have : regLookup reg (lineDeferredId (c :: tl)) = none := by rw [hnan]; rfl
  have h := settleLine_lookup_none parse uf (c = TYPE_ERROR) (c :: tl) reg this
  rw [processLine_marker parse uf c tl reg hc, h, hnan]

theorem nan_id_yields_lookup_error_witness :
    processLine trivParse trivUnflatten ['P', 'a', 'b', 'c', ':', '1']
        [(0, DStatus.pending)] = Except.error (DecErr.lookupError none) :=
  (nan_id_yields_lookup_error trivParse trivUnflatten 'P' ['a', 'b', 'c', ':', '1']
    [(0, DStatus.pending)] (Or.inl rfl) (by decide) (by decide)).1

/-! ## Encode-side bookkeeping notions for the no-retransmission claim -/

/-- The fragment-table entries a frame carries over the wire: the
initial table frame carries the whole table so far, a delta settlement
frame carries its slice; sentinel and back-reference frames carry no
table entries. -/
def sentEntries : Frame → List (Option String)
  | Frame.initialTable es => es
  | Frame.settleF _ _ (Payload.delta es) => es
  | _ => []

/-- All fragment-table entries carried by a sequence of frames. -/
def sentAll (fs : List Frame) : List (Option String) :=
  (fs.map sentEntries).flatten

/-- Contract of `flatten` (from the spec, `flatten.js` being absent
from `src/`): when it returns the back-reference wrapper it has seen
the value before and appends nothing, and when it returns an inline
sentinel the value needed no table slot, so it appends nothing. -/
def flatOutGood (fo : FlatOut) : Prop :=
  match fo.2 with
  | FlattenId.wrapped _ => fo.1 = []
  | FlattenId.num n => n < 0 → fo.1 = []

/-- A settlement event whose (actually flattened) outcome satisfies the
`flatten` contract. -/
def settGood : Nat × Settlement → Prop
  | (_, Settlement.resolvedE fo) => flatOutGood fo
  | (_, Settlement.rejectedE reason flat) => flatOutGood (flat (normalizeReason reason))

/-- The high-water-mark invariant maintained by the settlement loop:
`lastSentIndex` is always the last index of the fragment table, i.e.
everything in the table up to and including `lastSentIndex` has been
transmitted (or is a back-reference bookkeeping hole). -/
def encInv (st : EncState) : Prop :=
  st.lastSentIndex = (st.stringified.length : Int) - 1

lemma jsSliceFrom_append_all {α : Type} (l m : List α) :
    jsSliceFrom (l ++ m) ((l.length : Int) - 1 + 1) = m := by
  unfold jsSliceFrom jsSliceIdx
  have h1 : ((l.length : Int) - 1 + 1) = (l.length : Int) := by ring
  rw [h1]
  have h2 : ¬((l.length : Int) < 0) := by omega
  rw [if_neg h2]
  simp [List.drop_left]

lemma emitSettle_inv_sent (isErr : Bool) (did : Nat) (fo : FlatOut) (st : EncState)
    (hinv : encInv st) (hgood : flatOutGood fo) :
    encInv (emitSettle isErr did fo st).2 ∧
    (emitSettle isErr did fo st).2.stringified.filterMap id =
      st.stringified.filterMap id ++
        (sentEntries (emitSettle isErr did fo st).1).filterMap id := by
  unfold encInv at hinv ⊢
  rcases fo with ⟨frags, fid⟩
  cases fid with
  | wrapped k =>
    have hfr : frags = [] := hgood
    subst hfr
    refine ⟨?_, ?_⟩
    · simp [emitSettle]
      omega
    · simp [emitSettle, sentEntries]
  | num n =>
    by_cases hn : n < 0
    · have hfr : frags = [] := hgood hn
      subst hfr
      refine ⟨?_, ?_⟩
      · simpa [emitSettle, hn] using hinv
      · simp [emitSettle, hn, sentEntries]
    · refine ⟨?_, ?_⟩
      · simp [emitSettle, hn]
      · have hslice : jsSliceFrom (st.stringified ++ frags.map some)
            (st.lastSentIndex + 1) = frags.map some := by
          rw [hinv]
          exact jsSliceFrom_append_all st.stringified (frags.map some)
        simp [emitSettle, hn, sentEntries, hslice, List.filterMap_append]

lemma stepSettle_inv_sent (ev : Nat × Settlement) (st : EncState)
    (hinv : encInv st) (hgood : settGood ev) :
    encInv (stepSettle st ev).2 ∧
    (stepSettle st ev).2.stringified.filterMap id =
      st.stringified.filterMap id ++
        (sentEntries (stepSettle st ev).1).filterMap id := by
  rcases ev with ⟨did, s⟩
  cases s with
  | resolvedE fo => exact emitSettle_inv_sent false did fo st hinv hgood
  | rejectedE reason flat =>
    exact emitSettle_inv_sent true did (flat (normalizeReason reason)) st hinv hgood

lemma runSettles_inv_sent (sched : List (Nat × Settlement)) :
    ∀ st : EncState, encInv st → (∀ ev ∈ sched, settGood ev) →
      encInv (runSettles sched st).2 ∧
      (runSettles sched st).2.stringified.filterMap id =
        st.stringified.filterMap id ++ (sentAll (runSettles sched st).1).filterMap id := by
  induction sched with
  | nil => intro st hinv _; exact ⟨hinv, by simp [runSettles, sentAll]⟩
  | cons ev evs ih =>
    intro st hinv hgood
    have h1 := stepSettle_inv_sent ev st hinv (hgood ev (List.mem_cons_self ev evs))
    have h2 := ih (stepSettle st ev).2 h1.1 (fun e he => hgood e (List.mem_cons_of_mem ev he))
    refine ⟨by simpa [runSettles] using h2.1, ?_⟩
    show ((runSettles evs (stepSettle st ev).2).2).stringified.filterMap id = _
    rw [h2.2, h1.2]
    simp [runSettles, sentAll, List.filterMap_append]

/-! ## Encode-side claim theorems -/

/-- C5: the initial flatten of the input determines the first frame.
A back-reference wrapper at top level is a fatal internal-invariant
error (`new Error("This should never happen")`); an inline sentinel
(negative id) emits exactly one line holding the sentinel, after which
the stream closes with no settlement frames (no deferred values can be
registered for a value that collapsed to a sentinel, so the settlement
schedule is empty); otherwise one line carries the full current
fragment table and the high-water mark becomes the last table index. -/
theorem initial_frame_three_cases (frags : List String) (k n m : Int)
    (hn : n < 0) (hm : 0 ≤ m) :
    (encodeStart (frags, FlattenId.wrapped k) = Except.error EncErr.invariantViolation) ∧
    (encodeStart (frags, FlattenId.num n) =
      Except.ok (Frame.initialSentinel n, ⟨frags.map some, 0⟩)) ∧
    (encodeRun (frags, FlattenId.num n) [] = Except.ok [Frame.initialSentinel n]) ∧
    (encodeStart (frags, FlattenId.num m) =
      Except.ok (Frame.initialTable (frags.map some),
        ⟨frags.map some, (frags.length : Int) - 1⟩)) := by
  have hm' : ¬(m < 0) := not_lt.mpr hm
  refine ⟨rfl, ?_, ?_, ?_⟩
  · simp [encodeStart, hn]
  · simp [encodeRun, encodeStart, hn, runSettles]
  · simp [encodeStart, hm']

theorem initial_frame_three_cases_witness :
    (encodeStart (["a"], FlattenId.wrapped 0) = Except.error EncErr.invariantViolation) ∧
    (encodeStart (["a"], FlattenId.num (-1)) =
      Except.ok (Frame.initialSentinel (-1), ⟨[some "a"], 0⟩)) ∧
    (encodeRun (["a"], FlattenId.num (-1)) [] = Except.ok [Frame.initialSentinel (-1)]) ∧
    (encodeStart (["a"], FlattenId.num 0) =
      Except.ok (Frame.initialTable [some "a"], ⟨[some "a"], (1 : Int) - 1⟩)) := by
  have h := initial_frame_three_cases ["a"] 0 (-1) 0 (by decide) (by decide)
  exact ⟨h.1, h.2.1, h.2.2.1, by simpa using h.2.2.2⟩

/-- C6: fragments are never re-transmitted.  First conjunct: at any
state satisfying the high-water-mark invariant, a settlement whose
flatten outcome is a table index emits as payload exactly the newly
appended fragments (the slice strictly after the high-water mark
through the new last index) and updates the high-water mark to the new
last index.  Remaining conjuncts: starting from the initial table frame
(whose state `encodeStart` produces for a top-level table index),
running any settlement schedule obeying the `flatten` contract
transmits, across the initial frame and all delta payloads, exactly the
real (non-hole) entries of the final fragment table, each exactly once
and in table order; in particular the total number of fragment entries
sent equals the number of fragments in the final table. -/
theorem fragments_transmitted_exactly_once (table0 : List String)
    (sched : List (Nat × Settlement)) (did : Nat) (frags : List String) (k : Int)
    (st : EncState) (hgood : ∀ ev ∈ sched, settGood ev) (hinv : encInv st)
    (hk : 0 ≤ k) :
    (stepSettle st (did, Settlement.resolvedE (frags, FlattenId.num k)) =
      (Frame.settleF false did (Payload.delta (frags.map some)),
        ⟨st.stringified ++ frags.map some,
          ((st.stringified ++ frags.map some).length : Int) - 1⟩)) ∧
    (encodeStart (table0, FlattenId.num k) =
      Except.ok (Frame.initialTable (table0.map some),
        ⟨table0.map some, (table0.length : Int) - 1⟩)) ∧
    (table0 ++
        (sentAll (runSettles sched ⟨table0.map some, (table0.length : Int) - 1⟩).1).filterMap id =
      ((runSettles sched ⟨table0.map some, (table0.length : Int) - 1⟩).2).stringified.filterMap id) ∧
    (table0.length +
        ((sentAll (runSettles sched ⟨table0.map some, (table0.length : Int) - 1⟩).1).filterMap id).length =
      (((runSettles sched ⟨table0.map some, (table0.length : Int) - 1⟩).2).stringified.filterMap id).length) := by
  have hk' : ¬(k < 0) := not_lt.mpr hk
  have hinv0 : encInv ⟨table0.map some, (table0.length : Int) - 1⟩ := by
    unfold encInv; simp
  have hmain := runSettles_inv_sent sched ⟨table0.map some, (table0.length : Int) - 1⟩ hinv0 hgood
  have htable : (table0.map some).filterMap id = table0 := by
    rw [List.filterMap_map]; simp
  have hsent : table0 ++
      (sentAll (runSettles sched ⟨table0.map some, (table0.length : Int) - 1⟩).1).filterMap id =
      ((runSettles sched ⟨table0.map some, (table0.length : Int) - 1⟩).2).stringified.filterMap id := by
    rw [hmain.2]
    show table0 ++ _ = (table0.map some).filterMap id ++ _
    rw [htable]
  refine ⟨?_, ?_, hsent, ?_⟩
  · unfold encInv at hinv
    have hslice : jsSliceFrom (st.stringified ++ frags.map some)
        (st.lastSentIndex + 1) = frags.map some := by
      rw [hinv]
      exact jsSliceFrom_append_all st.stringified (frags.map some)
    simp [stepSettle, emitSettle, hk', hslice]
  · simp [encodeStart, hk']
  · have := congrArg List.length hsent
    simpa using this

theorem fragments_transmitted_exactly_once_witness :
    (stepSettle ⟨[some "a", some "b"], 1⟩
        (7, Settlement.resolvedE (["c", "d"], FlattenId.num 2)) =
      (Frame.settleF false 7 (Payload.delta [some "c", some "d"]),
        ⟨[some "a", some "b", some "c", some "d"], (4 : Int) - 1⟩)) ∧
    (["a", "b"] ++
        (sentAll (runSettles
          [(7, Settlement.resolvedE (["c", "d"], FlattenId.num 2))]
          ⟨[some "a", some "b"], (2 : Int) - 1⟩).1).filterMap id =
      ((runSettles [(7, Settlement.resolvedE (["c", "d"], FlattenId.num 2))]
          ⟨[some "a", some "b"], (2 : Int) - 1⟩).2).stringified.filterMap id) := by
  have h := fragments_transmitted_exactly_once ["a", "b"]
    [(7, Settlement.resolvedE (["c", "d"], FlattenId.num 2))] 7 ["c", "d"] 2
    ⟨[some "a", some "b"], 1⟩
    (by
      intro ev hev
      rw [List.mem_singleton] at hev
      subst hev
      intro hlt
      exact absurd hlt (by decide))
    (by unfold encInv; decide) (by decide)
  refine ⟨by simpa using h.1, h.2.2.1⟩

/-- C7: cancellation degrades gracefully.  First conjunct: a signal
already in its aborted state at race-start makes `raceSignal` reject
immediately with the cancellation reason (`signal.reason`, or the
default abort error when falsy), regardless of the promise and of any
race timing.  Remaining conjuncts: draining an encode whose signal is
aborted while `pending` deferred entries are still outstanding emits
exactly one frame per outstanding entry — each a rejection frame, each
addressed to that entry's id, in registry order — after which the
settlement loop ends and the stream closes normally; entries that
settled earlier are no longer in the registry and are untouched. -/
theorem cancellation_degrades_gracefully (p : Option POutcome) (s : SignalM)
    (t : Bool) (pending : List (Nat × (RejReason → FlatOut))) (st : EncState)
    (habort : s.aborted = true) :
    (raceSignal p (some s) t = some (POutcome.pRejected (abortReason s))) ∧
    ((cancelDrain pending s st).length = pending.length) ∧
    (∀ f ∈ cancelDrain pending s st, f.isRejection = true) ∧
    ((cancelDrain pending s st).map Frame.frameDeferredId =
      pending.map (fun q => some q.1)) := by
  refine ⟨by simp [raceSignal, habort], ?_⟩
  have key : ∀ (pd : List (Nat × (RejReason → FlatOut))) (st0 : EncState),
      (cancelDrain pd s st0).length = pd.length ∧
      (∀ f ∈ cancelDrain pd s st0, f.isRejection = true) ∧
      ((cancelDrain pd s st0).map Frame.frameDeferredId =
        pd.map (fun q => some q.1)) := by
    intro pd
    induction pd with
    | nil => intro st0; refine ⟨rfl, ?_, rfl⟩; intro f hf; simp [cancelDrain, cancelSchedule, runSettles] at hf
    | cons q qs ih =>
      intro st0
      have hframe : ∃ pl, (stepSettle st0
          (q.1, Settlement.rejectedE (abortReason s) q.2)).1 =
          Frame.settleF true q.1 pl := by
        rcases hfo : (q.2 (normalizeReason (abortReason s))) with ⟨frs, fid⟩
        cases fid with
        | wrapped kk =>
          exact ⟨Payload.backref kk, by simp [stepSettle, emitSettle, hfo]⟩
        | num nn =>
          by_cases hnn : nn < 0
          · exact ⟨Payload.sentinel nn, by simp [stepSettle, emitSettle, hfo, hnn]⟩
          · exact ⟨Payload.delta (jsSliceFrom (st0.stringified ++ frs.map some)
              (st0.lastSentIndex + 1)), by simp [stepSettle, emitSettle, hfo, hnn]⟩
      obtain ⟨pl, hpl⟩ := hframe
      have hcons : cancelDrain (q :: qs) s st0 =
          (stepSettle st0 (q.1, Settlement.rejectedE (abortReason s) q.2)).1 ::
            cancelDrain qs s
              (stepSettle st0 (q.1, Settlement.rejectedE (abortReason s) q.2)).2 := by
        simp [cancelDrain, cancelSchedule, runSettles]
      have ihs := ih (stepSettle st0 (q.1, Settlement.rejectedE (abortReason s) q.2)).2
      refine ⟨?_, ?_, ?_⟩
      · rw [hcons]
        simp [ihs.1]
      · intro f hf
        rw [hcons] at hf
        rcases List.mem_cons.mp hf with hf | hf
        · rw [hf, hpl]; rfl
        · exact ihs.2.1 f hf
      · rw [hcons]
        simp only [List.map_cons, hpl, ihs.2.2]
        rfl
  exact key pending st

theorem cancellation_degrades_gracefully_witness :
    (raceSignal (some (POutcome.pResolved 3)) (some ⟨true, none⟩) false =
      some (POutcome.pRejected defaultAbortError)) ∧
    ((cancelDrain [(0, fun _ => ([], FlattenId.num (-3))),
        (1, fun _ => (["e"], FlattenId.num 1))] ⟨true, none⟩ ⟨[some "a"], 0⟩).length = 2) ∧
    ((cancelDrain [(0, fun _ => ([], FlattenId.num (-3))),
        (1, fun _ => (["e"], FlattenId.num 1))] ⟨true, none⟩ ⟨[some "a"], 0⟩).map
          Frame.frameDeferredId = [some 0, some 1]) := by
  have h := cancellation_degrades_gracefully (some (POutcome.pResolved 3)) ⟨true, none⟩
    false [(0, fun _ => ([], FlattenId.num (-3))), (1, fun _ => (["e"], FlattenId.num 1))]
    ⟨[some "a"], 0⟩ rfl
  exact ⟨h.1, h.2.1, by rw [h.2.2.2]; rfl⟩

/-- C8: on failure of an encode-side deferred entry, a rejection reason
that is not an `Error` instance is replaced by
`new Error("An unknown error occurred")` before being flattened, while
an `Error` reason is flattened as-is; the frame emitted for that
deferred id is tagged with the error marker and uses the same three-way
payload rule as resolution frames: a back-reference payload (with the
hole/high-water-mark bookkeeping), a bare inline sentinel, or the delta
slice of the fragment table strictly after the high-water mark. -/
theorem rejection_normalized_and_three_way (did : Nat)
    (flat : RejReason → FlatOut) (st : EncState) (reason : RejReason) (msg : String)
    (hraw : reason = RejReason.nonError) :
    (stepSettle st (did, Settlement.rejectedE reason flat) =
      emitSettle true did (flat (RejReason.errorObj "An unknown error occurred")) st) ∧
    (stepSettle st (did, Settlement.rejectedE (RejReason.errorObj msg) flat) =
      emitSettle true did (flat (RejReason.errorObj msg)) st) ∧
    (∀ (frs : List String) (kk : Int),
      (emitSettle true did (frs, FlattenId.wrapped kk) st).1 =
        Frame.settleF true did (Payload.backref kk) ∧
      (emitSettle true did (frs, FlattenId.wrapped kk) st).2 =
        ⟨st.stringified ++ frs.map some ++ [none], st.lastSentIndex + 1⟩) ∧
    (∀ (frs : List String) (nn : Int), nn < 0 →
      (emitSettle true did (frs, FlattenId.num nn) st).1 =
        Frame.settleF true did (Payload.sentinel nn)) ∧
    (∀ (frs : List String) (nn : Int), 0 ≤ nn →
      (emitSettle true did (frs, FlattenId.num nn) st).1 =
        Frame.settleF true did (Payload.delta
          (jsSliceFrom (st.stringified ++ frs.map some) (st.lastSentIndex + 1)))) := by
  subst hraw
  refine ⟨rfl, rfl, ?_, ?_, ?_⟩
  · intro frs kk
    exact ⟨rfl, rfl⟩
  · intro frs nn hnn
    simp [emitSettle, hnn]
  · intro frs nn hnn
    simp [emitSettle, not_lt.mpr hnn]

theorem rejection_normalized_and_three_way_witness :
    (stepSettle ⟨[some "a"], 0⟩ (4, Settlement.rejectedE RejReason.nonError
        (fun _ => (["x"], FlattenId.num 1))) =
      emitSettle true 4 ((fun (_ : RejReason) => (["x"], FlattenId.num 1))
        (RejReason.errorObj "An unknown error occurred")) ⟨[some "a"], 0⟩) ∧
    ((emitSettle true 4 (["x"], FlattenId.num 1) ⟨[some "a"], 0⟩).1 =
      Frame.settleF true 4 (Payload.delta
        (jsSliceFrom ([some "a"] ++ [some "x"]) (0 + 1)))) := by
  have h := rejection_normalized_and_three_way 4
    (fun _ => (["x"], FlattenId.num 1)) ⟨[some "a"], 0⟩ RejReason.nonError "m" rfl
  exact ⟨h.1, by simpa using h.2.2.2.2 ["x"] 1 (by decide)⟩

end TurboStream
